import Mathlib

/-!
Verification of the openclaw browser-control CLI client.

The repository's visible source (`src/cli/browser-cli-actions-observe.ts`,
`src/cli/browser-cli-debug.ts`) is the CLI command layer: it normalises
arguments and builds the request passed to the browser client library
(`../browser/client.js`, `../browser/client-actions.js`), whose code is not
part of the visible tree.  Definitions below are therefore of two kinds:

* direct embeddings of the visible CLI code (request construction, argument
  validation, whitespace normalisation of target references), and
* definitions whose doc comment starts `Modelled from the spec:` — the core
  client operations (target resolution, profile deletion, the response-body
  event waiter and its URL pattern matcher) that the spec describes but whose
  implementation files are absent from the tree.

Strings are modelled by Lean `String` (a wrapper around `List Char`); JS
numbers that flow through `Math.floor` are modelled by `ℚ` (every finite
double is rational, and the claims concern only finite inputs).
-/

namespace OpenClaw

/-- One open browser tab: an opaque target id plus presentation data
(spec §3, `Target`). -/
structure Target where
  targetId : String
  title : String
  url : String
deriving Repr, DecidableEq

/-- Typed failures of target resolution (spec §7 taxonomy). -/
inductive ResolveError where
  | IndexOutOfRange
  | TargetNotFound
  | AmbiguousTarget
  | NoTargetsOpen
deriving Repr, DecidableEq

/-- Boolean "p is a prefix of s" over character lists (JS
`String.prototype.startsWith` on the code points of the two strings). -/
def listStartsWith : List Char → List Char → Bool
  | [], _ => true
  | _ :: _, [] => false
  | p :: ps, c :: cs => (p == c) && listStartsWith ps cs

/-- Modelled from the spec: Target Resolver rule 2 (§4.3), implemented in the
absent `../browser/client.js`.  Collects the targets whose `targetId` equals
`s` exactly, or — only when none matches exactly — those whose `targetId`
starts with `s`; zero candidates is `TargetNotFound`, two or more is
`AmbiguousTarget`, one is returned. -/
def byIdOrPfx (targets : List Target) (s : String) : Except ResolveError Target :=
  let exactMatches := targets.filter fun t => t.targetId == s
  let cands :=
    if exactMatches.isEmpty then
      targets.filter fun t => listStartsWith s.data t.targetId.data
    else exactMatches
  match cands with
  | [] => Except.error ResolveError.TargetNotFound
  | [t] => Except.ok t
  | _ :: _ :: _ => Except.error ResolveError.AmbiguousTarget

/-- Modelled from the spec: Target Resolver rule 1 (§4.3), implemented in the
absent `../browser/client.js`.  A 1-based index outside `1..count` is
`IndexOutOfRange`; otherwise the `(i-1)`-th element of the live list. -/
def byIndex (targets : List Target) (i : Int) : Except ResolveError Target :=
  if h : 1 ≤ i ∧ i ≤ (targets.length : Int) then
    Except.ok (targets.get ⟨(i - 1).toNat, by omega⟩)
  else Except.error ResolveError.IndexOutOfRange

/-- Modelled from the spec: Profile Registry `delete` (§4.1), implemented in
the absent `../browser/client.js`.  The store is the list of profile names
that currently have user data; the result is the `deleted` flag together with
the store afterwards.  The operation is total — deleting a name with no user
data is not an error, it reports `deleted = false`. -/
def deleteProfile (store : List String) (name : String) : Bool × List String :=
  (store.contains name, store.filter fun n => !(n == name))

/-- JS `String.prototype.trim`: the string with its leading and trailing
whitespace removed (whitespace per `Char.isWhitespace`). -/
def jsTrim (s : String) : String :=
  String.mk (((s.data.dropWhile Char.isWhitespace).reverse.dropWhile
    Char.isWhitespace).reverse)

/-- Embeds the `opts.targetId?.trim() || undefined` normalisation every
observe/debug command applies to its `--target-id` option
(`browser-cli-actions-observe.ts` lines 33-38, 57, 88; `browser-cli-debug.ts`
lines 39, 61, 93, 134, 159): a missing, empty or all-whitespace value becomes
`none` (the request carries no target reference); anything else is sent
trimmed. -/
def normalizeTargetRef (targetId : Option String) : Option String :=
  match targetId with
  | none => none
  | some s => if jsTrim s = "" then none else some (jsTrim s)

/-- Where the `close` command sends its request: `closeTab id` is
`browserCloseTab(baseUrl, id)`, `act` is the delegated
`browserAct(baseUrl, \x7bkind: "close"\x7d)` with no target reference. -/
inductive CloseDispatch where
  | closeTab (targetId : String)
  | act
deriving Repr, DecidableEq

/-- Embeds the `close` command's dispatch
(`browser-cli-actions-observe.ts` lines 397-417): a truthy trimmed target id
goes to `browserCloseTab` with the trimmed id; otherwise the request is
delegated to the external action boundary (`browserAct` close) with no
client-side target resolution. -/
def closeCommand (targetId : Option String) : CloseDispatch :=
  match targetId with
  | none => CloseDispatch.act
  | some s => if jsTrim s = "" then CloseDispatch.act
      else CloseDispatch.closeTab (jsTrim s)

/-- A tab action request as the CLI builds it for `browserTabAction`
(`browser-cli-actions-observe.ts` lines 319-323 and 348-352): the literal
passed is `\x7baction, index?, profile\x7d`; it has no target-id field, which the
model records as `targetId = none`. -/
structure TabActionRequest where
  action : String
  index : Option Int
  targetId : Option String
  profile : Option String
deriving Repr, DecidableEq

/-- Embeds the `tab select` action (`browser-cli-actions-observe.ts` lines
305-330).  The JS argument is `Number(v)`; a finite value is modelled by a
rational.  A value below 1 is rejected with an error before any request is
sent (modelled as `none`); otherwise the request carries the 0-based index
`Math.floor(index) - 1` and no target id. -/
def tabSelectRequest (profile : Option String) (index : ℚ) :
    Option TabActionRequest :=
  if index < 1 then none
  else some { action := "select", index := some (⌊index⌋ - 1),
              targetId := none, profile := profile }

/-- Embeds the `tab close` action (`browser-cli-actions-observe.ts` lines
332-359).  With no index the request carries no index field; with a finite
index the CLI computes `Math.floor(index) - 1` and rejects it with an error
before any request when that is below 0. -/
def tabCloseRequest (profile : Option String) : Option ℚ →
    Option TabActionRequest
  | none => some { action := "close", index := none,
                   targetId := none, profile := profile }
  | some q =>
      if ⌊q⌋ - 1 < 0 then none
      else some { action := "close", index := some (⌊q⌋ - 1),
                  targetId := none, profile := profile }

/-- Boolean "p occurs as a contiguous substring of s" over character lists
(the substring-containment mode of the URL pattern matcher). -/
def listContains (p : List Char) : List Char → Bool
  | [] => listStartsWith p []
  | c :: cs => listStartsWith p (c :: cs) || listContains p cs

/-- The suffixes of `cs` reachable by deleting a (possibly empty) run of
characters from the front that contains no `/`: the strings a single `*`
wildcard may leave behind, since `*` never crosses a path-segment boundary. -/
def nonSlashTails : List Char → List (List Char)
  | [] => [[]]
  | c :: cs => (c :: cs) :: (if c = '/' then [] else nonSlashTails cs)

/-- Modelled from the spec: the glob mode of `urlPattern` matching (§4.5 and
§9 open question), implemented in the absent `../browser/client-actions.js`.
The pattern is matched against the whole URL; `**` consumes any run of
characters including `/`, `*` any run within one path segment, and every
other character matches itself. -/
def globMatch : List Char → List Char → Bool
  | [], cs => cs.isEmpty
  | '*' :: '*' :: ps, cs => cs.tails.any fun suf => globMatch ps suf
  | '*' :: ps, cs => (nonSlashTails cs).any fun suf => globMatch ps suf
  | p :: ps, cs =>
      match cs with
      | [] => false
      | c :: cs' => (p == c) && globMatch ps cs'

/-- Which of the three `urlPattern` modes matched. -/
inductive MatchMode where
  | exact
  | substr
  | glob
deriving Repr, DecidableEq

/-- Modelled from the spec: `urlPattern` matching order of the Event Waiter
(§4.5), implemented in the absent `../browser/client-actions.js` — exact
string equality first; else substring containment; else glob.  Returns the
mode that matched, so the precedence is observable. -/
def urlMatchMode (pattern url : String) : Option MatchMode :=
  if pattern = url then some MatchMode.exact
  else if listContains pattern.data url.data then some MatchMode.substr
  else if globMatch pattern.data url.data then some MatchMode.glob
  else none

/-- A candidate URL satisfies the pattern when some mode matches. -/
def urlMatches (pattern url : String) : Bool :=
  (urlMatchMode pattern url).isSome

/-- Typed failures of the Event Waiter (spec §7): a timeout is distinct from
a connectivity failure. -/
inductive AwaitError where
  | ResponseTimeout
  | ServiceUnavailable
deriving Repr, DecidableEq

/-- One completed network response on the event stream: its completion time
in milliseconds from the start of the wait, its final URL, status and body. -/
structure RespEvent where
  time : Nat
  url : String
  status : Nat
  body : List Char
deriving Repr, DecidableEq

/-- What `awaitResponse` returns for the matched response: the (possibly
truncated) body, an explicit truncation indicator, and response metadata. -/
structure AwaitResult where
  body : List Char
  truncated : Bool
  status : Nat
  url : String
deriving Repr, DecidableEq

/-- Modelled from the spec: the body truncation of the Event Waiter (§4.5) —
a body within `maxChars` is returned unchanged with the indicator false; a
longer body is cut to its first `maxChars` characters with the indicator
true. -/
def truncateBody (body : List Char) (maxChars : Nat) : List Char × Bool :=
  if body.length ≤ maxChars then (body, false) else (body.take maxChars, true)

/-- Modelled from the spec: `timeoutMs` defaults to 20000 when omitted
(§4.5). -/
def effectiveDeadline (timeoutMs : Option Nat) : Nat :=
  timeoutMs.getD 20000

/-- Modelled from the spec: `maxChars` defaults to 200000 when omitted
(§4.5). -/
def effectiveMaxChars (maxChars : Option Nat) : Nat :=
  maxChars.getD 200000

/-- Modelled from the spec: the Event Waiter `awaitResponse` (§4.5),
implemented in the absent `../browser/client-actions.js`.  `events` is the
stream of responses that complete during the wait, in completion order; the
waiter returns the first one whose final URL satisfies the pattern and which
completes before the deadline, with its body truncated to the effective
`maxChars`; if no such response exists the wait ends in the typed outcome
`ResponseTimeout`. -/
def awaitResponse (pattern : String) (timeoutMs maxChars : Option Nat)
    (events : List RespEvent) : Except AwaitError AwaitResult :=
  match events.find? fun e =>
      decide (e.time < effectiveDeadline timeoutMs) && urlMatches pattern e.url with
  | some e =>
      let tb := truncateBody e.body (effectiveMaxChars maxChars)
      Except.ok { body := tb.1, truncated := tb.2, status := e.status, url := e.url }
  | none => Except.error AwaitError.ResponseTimeout

example : awaitResponse "u" none (some 3)
    [{ time := 0, url := "u", status := 200, body := ['a', 'b', 'c'] }] =
    Except.ok { body := ['a', 'b', 'c'], truncated := false, status := 200,
                url := "u" } := rfl

/-- The spec's worked example target list. -/
def demoTargets : List Target :=
  [⟨"AAA111", "", ""⟩, ⟨"AAA222", "", ""⟩]

example : byIdOrPfx [⟨"AAA111", "", ""⟩, ⟨"AAA222", "", ""⟩] "AAA1" =
    Except.ok ⟨"AAA111", "", ""⟩ := rfl
example : byIdOrPfx [⟨"AAA111", "", ""⟩, ⟨"AAA222", "", ""⟩] "AAA" =
    Except.error ResolveError.AmbiguousTarget := rfl
example : byIdOrPfx [⟨"AAA111", "", ""⟩, ⟨"AAA222", "", ""⟩] "ZZZ" =
    Except.error ResolveError.TargetNotFound := rfl
example : byIdOrPfx [⟨"AAA111", "", ""⟩, ⟨"AAA222", "", ""⟩] "AAA111" =
    Except.ok ⟨"AAA111", "", ""⟩ := rfl
example : byIndex [⟨"a", "", ""⟩, ⟨"b", "", ""⟩, ⟨"c", "", ""⟩] 1 =
    Except.ok ⟨"a", "", ""⟩ := rfl
example : byIndex [⟨"a", "", ""⟩, ⟨"b", "", ""⟩, ⟨"c", "", ""⟩] 0 =
    Except.error ResolveError.IndexOutOfRange := rfl
example : byIndex [⟨"a", "", ""⟩, ⟨"b", "", ""⟩, ⟨"c", "", ""⟩] 4 =
    Except.error ResolveError.IndexOutOfRange := rfl
example : deleteProfile ["a", "b"] "a" = (true, ["b"]) := rfl
example : deleteProfile ["b"] "a" = (false, ["b"]) := rfl

example : jsTrim "  a b  " = "a b" := rfl
example : jsTrim "   " = "" := rfl
example : normalizeTargetRef (some "  ") = none := rfl
example : normalizeTargetRef (some " id1 ") = some "id1" := rfl
example : closeCommand (some "\t\n") = CloseDispatch.act := rfl
example : closeCommand (some " t1 ") = CloseDispatch.closeTab "t1" := rfl
example : tabSelectRequest none (29 / 10) =
    some { action := "select", index := some 1, targetId := none,
           profile := none } := by
  norm_num [tabSelectRequest]
example : tabSelectRequest none (1 / 2) = none := by
  norm_num [tabSelectRequest]
example : tabCloseRequest none (some (1 / 2)) = none := by
  norm_num [tabCloseRequest, Int.floor_eq_zero_iff]

example : urlMatchMode "https://x/y" "https://x/y" = some MatchMode.exact := rfl
example : urlMatchMode "x/y" "https://x/y" = some MatchMode.substr := rfl
example : urlMatchMode "**/api" "https://x/api" = some MatchMode.glob := rfl
example : urlMatchMode "https://x/*/z" "https://x/y/z" = some MatchMode.glob := rfl
example : urlMatchMode "https://x/*" "https://x/y/z" = none := rfl
example : urlMatchMode "https://x/**" "https://x/y/z" = some MatchMode.glob := rfl
example : urlMatchMode "zzz" "https://x/y" = none := rfl
example : awaitResponse "**/api" (some 50) none
    [{ time := 100, url := "https://x/api", status := 200, body := [] }] =
    Except.error AwaitError.ResponseTimeout := rfl
example : awaitResponse "u" none (some 2)
    [{ time := 0, url := "u", status := 200, body := ['a', 'b', 'c'] }] =
    Except.ok { body := ['a', 'b'], truncated := true, status := 200,
                url := "u" } := rfl

/-- Helper: a string of nothing but whitespace trims to the empty string. -/
theorem jsTrim_eq_empty (s : String) (h : ∀ c ∈ s.data, c.isWhitespace) :
    jsTrim s = "" := by
  have hd : s.data.dropWhile Char.isWhitespace = [] :=
    List.dropWhile_eq_nil_iff.mpr h
  simp [jsTrim, hd]

/-- C6: `byIndex(i)` fails with `IndexOutOfRange` when `i < 1` or
`i > count`, and otherwise returns the `(i-1)`-th element of the list
(1-based input to 0-based position). -/
theorem byIndex_spec (targets : List Target) (i : Int) :
    ((i < 1 ∨ (targets.length : Int) < i) →
        byIndex targets i = Except.error ResolveError.IndexOutOfRange)
  ∧ (1 ≤ i → i ≤ (targets.length : Int) →
        ∃ t, targets.get? (i - 1).toNat = some t ∧
          byIndex targets i = Except.ok t) := by
  constructor
  · intro hout
    rw [byIndex, dif_neg]
    omega
  · intro h1 h2
    have hlt : (i - 1).toNat < targets.length := by omega
    refine ⟨targets.get ⟨(i - 1).toNat, hlt⟩, List.get?_eq_get hlt, ?_⟩
    rw [byIndex, dif_pos ⟨h1, h2⟩]

/-- C7: `delete(name)` is total — it reports `deleted = true` exactly when
the name had user data, and a second delete of the same name reports
`deleted = false`, so repeated deletes are idempotent and never error. -/
theorem deleteProfile_idempotent (store : List String) (name : String) :
    ((deleteProfile store name).1 = true ↔ name ∈ store)
  ∧ (deleteProfile (deleteProfile store name).2 name).1 = false := by
  constructor
  · simp [deleteProfile]
  · simp [deleteProfile, List.mem_filter]

/-- C8: `close` with no usable target reference does not resolve a target
client-side — it delegates to the external action boundary (`browserAct`
with kind `close`), while a non-empty reference is closed specifically via
`browserCloseTab` with the trimmed id. -/
theorem closeCommand_dispatch :
    closeCommand none = CloseDispatch.act
  ∧ (∀ s, jsTrim s = "" → closeCommand (some s) = CloseDispatch.act)
  ∧ (∀ s, jsTrim s ≠ "" →
        closeCommand (some s) = CloseDispatch.closeTab (jsTrim s)) := by
  refine ⟨rfl, fun s h => ?_, fun s h => ?_⟩ <;> simp [closeCommand, h]

/-- C9: a target reference that is empty or all whitespace is treated
exactly as an unspecified reference — the request carries no target
reference rather than the whitespace string. -/
theorem targetRef_whitespace_unspecified (s : String)
    (h : ∀ c ∈ s.data, c.isWhitespace) :
    normalizeTargetRef (some s) = none
  ∧ closeCommand (some s) = CloseDispatch.act
  ∧ normalizeTargetRef none = none
  ∧ closeCommand none = CloseDispatch.act := by
  have ht := jsTrim_eq_empty s h
  exact ⟨by simp [normalizeTargetRef, ht], by simp [closeCommand, ht], rfl, rfl⟩

/-- Witness for C9 at the concrete two-space reference. -/
theorem targetRef_whitespace_unspecified_witness :
    normalizeTargetRef (some "  ") = none
  ∧ closeCommand (some "  ") = CloseDispatch.act
  ∧ normalizeTargetRef none = none
  ∧ closeCommand none = CloseDispatch.act :=
  targetRef_whitespace_unspecified "  " (by decide)

/-- C10: `tab select` rejects a finite index below 1 before sending any
request and otherwise sends `floor(index) - 1` as the 0-based index (so a
fractional 2.9 selects tab 2); `tab close` applies the same floor-and-shift
to its optional index and rejects an index whose floor is below 1. -/
theorem tabIndex_floor_spec (profile : Option String) (q : ℚ) :
    (q < 1 → tabSelectRequest profile q = none)
  ∧ (1 ≤ q → tabSelectRequest profile q =
      some { action := "select", index := some (⌊q⌋ - 1), targetId := none,
             profile := profile })
  ∧ tabSelectRequest profile (29 / 10) =
      some { action := "select", index := some 1, targetId := none,
             profile := profile }
  ∧ (⌊q⌋ < 1 → tabCloseRequest profile (some q) = none)
  ∧ (1 ≤ ⌊q⌋ → tabCloseRequest profile (some q) =
      some { action := "close", index := some (⌊q⌋ - 1), targetId := none,
             profile := profile })
  ∧ tabCloseRequest profile none =
      some { action := "close", index := none, targetId := none,
             profile := profile } := by
  refine ⟨fun h => ?_, fun h => ?_, ?_, fun h => ?_, fun h => ?_, rfl⟩
  · simp [tabSelectRequest, h]
  · simp [tabSelectRequest, not_lt.mpr h]
  · norm_num [tabSelectRequest]
  · simp only [tabCloseRequest]
    rw [if_pos (by omega)]
  · simp only [tabCloseRequest]
    rw [if_neg (by omega)]

/-- C2 counterexample: for the concrete index 2 the `tab select` request the
CLI passes to `browserTabAction` carries the raw 0-based index and no
resolved target id — refuting that index commands resolve the index to a
`targetId` client-side before invoking the underlying action. -/
theorem tabSelect_sends_raw_index :
    tabSelectRequest none 2 =
      some { action := "select", index := some 1, targetId := none,
             profile := none }
  ∧ ¬ ∃ r, tabSelectRequest none 2 = some r ∧ r.index = none ∧
      r.targetId ≠ none := by
  have h : tabSelectRequest none 2 =
      some { action := "select", index := some 1, targetId := none,
             profile := none } := by
    norm_num [tabSelectRequest]
  refine ⟨h, ?_⟩
  rintro ⟨r, hr, hidx, -⟩
  rw [h] at hr
  cases hr
  cases hidx

/-- C2 amended: for every accepted finite index, `tab select` and
`tab close` send the floored, 0-based raw index in the tab-action request's
`index` field with no client-side target id — index-to-target resolution is
delegated to the server. -/
theorem tabIndex_sent_raw (profile : Option String) (q : ℚ) (h : 1 ≤ q) :
    tabSelectRequest profile q =
      some { action := "select", index := some (⌊q⌋ - 1), targetId := none,
             profile := profile }
  ∧ tabCloseRequest profile (some q) =
      some { action := "close", index := some (⌊q⌋ - 1), targetId := none,
             profile := profile } := by
  have h1 : (1 : Int) ≤ ⌊q⌋ := Int.le_floor.mpr (by exact_mod_cast h)
  constructor
  · simp [tabSelectRequest, not_lt.mpr h]
  · simp only [tabCloseRequest]
    rw [if_neg (by omega)]

/-- Witness for the amended C2 at the concrete index 3. -/
theorem tabIndex_sent_raw_witness :
    tabSelectRequest none 3 =
      some { action := "select", index := some 2, targetId := none,
             profile := none }
  ∧ tabCloseRequest none (some 3) =
      some { action := "close", index := some 2, targetId := none,
             profile := none } := by
  have h := tabIndex_sent_raw none 3 (by norm_num)
  norm_num at h
  exact h

/-- Helper: with no target whose id equals `s`, the exact-match filter is
empty. -/
theorem filter_exact_eq_nil (targets : List Target) (s : String)
    (h : ∀ t ∈ targets, t.targetId ≠ s) :
    targets.filter (fun t => t.targetId == s) = [] := by
  rw [List.filter_eq_nil_iff]
  intro t ht
  simpa using h t ht

/-- Helper: with pairwise-distinct target ids, the exact-match filter for the
id of a member is that member alone. -/
theorem filter_exact_eq_single (targets : List Target) (s : String)
    (hn : (targets.map Target.targetId).Nodup) (t : Target) (ht : t ∈ targets)
    (hts : t.targetId = s) :
    targets.filter (fun u => u.targetId == s) = [t] := by
  induction targets with
  | nil => cases ht
  | cons a l ih =>
    rw [List.map_cons, List.nodup_cons] at hn
    rcases List.mem_cons.mp ht with rfl | hl
    · rw [List.filter_cons_of_pos (by simpa using hts)]
      have hnil : l.filter (fun u => u.targetId == s) = [] := by
        rw [List.filter_eq_nil_iff]
        intro u hu hb
        exact hn.1 (by
          have : u.targetId = t.targetId := by
            simpa [hts] using hb
          exact this ▸ List.mem_map_of_mem Target.targetId hu)
      rw [hnil]
    · have hne : (a.targetId == s) = false := by
        simp only [beq_eq_false_iff_ne, ne_eq]
        intro hb
        exact hn.1 (by
          rw [hb, ← hts]
          exact List.mem_map_of_mem Target.targetId hl)
      rw [List.filter_cons, hne]
      simpa using ih hn.2 hl

/-- C1: with distinct target ids, `byIdOrPrefix(s)` returns the target whose
id equals `s` exactly whenever one exists (even if `s` also prefixes other
ids); otherwise it returns the unique target whose id starts with `s`, fails
with `AmbiguousTarget` when two or more ids start with `s`, and fails with
`TargetNotFound` when none does. -/
theorem byIdOrPfx_spec (targets : List Target) (s : String)
    (hn : (targets.map Target.targetId).Nodup) :
    (∀ t ∈ targets, t.targetId = s → byIdOrPfx targets s = Except.ok t)
  ∧ ((∀ t ∈ targets, t.targetId ≠ s) →
      ((targets.filter fun t => listStartsWith s.data t.targetId.data) = [] →
          byIdOrPfx targets s = Except.error ResolveError.TargetNotFound)
    ∧ (∀ t, (targets.filter fun t => listStartsWith s.data t.targetId.data)
          = [t] → byIdOrPfx targets s = Except.ok t)
    ∧ (2 ≤ (targets.filter fun t =>
            listStartsWith s.data t.targetId.data).length →
          byIdOrPfx targets s = Except.error ResolveError.AmbiguousTarget)) := by
  constructor
  · intro t ht hts
    rw [byIdOrPfx, filter_exact_eq_single targets s hn t ht hts]
    rfl
  · intro hne
    have hex := filter_exact_eq_nil targets s hne
    refine ⟨?_, ?_, ?_⟩
    · intro h0
      rw [byIdOrPfx, hex]
      simp only [List.isEmpty_nil, if_true, h0]
    · intro t h1
      rw [byIdOrPfx, hex]
      simp only [List.isEmpty_nil, if_true, h1]
    · intro h2
      rcases hl : targets.filter
          (fun t => listStartsWith s.data t.targetId.data) with _ | ⟨a, _ | ⟨b, rest⟩⟩
      · rw [hl] at h2; simp at h2
      · rw [hl] at h2; simp at h2
      · rw [byIdOrPfx, hex]
        simp only [List.isEmpty_nil, if_true, hl]

/-- Witness for C1 on the spec's worked example: a unique prefix resolves, an
ambiguous prefix fails, a miss fails, and an exact id wins. -/
theorem byIdOrPfx_spec_witness :
    byIdOrPfx demoTargets "AAA1" = Except.ok ⟨"AAA111", "", ""⟩
  ∧ byIdOrPfx demoTargets "AAA" = Except.error ResolveError.AmbiguousTarget
  ∧ byIdOrPfx demoTargets "ZZZ" = Except.error ResolveError.TargetNotFound
  ∧ byIdOrPfx demoTargets "AAA111" = Except.ok ⟨"AAA111", "", ""⟩ := by
  refine ⟨?_, ?_, ?_, ?_⟩
  · exact ((byIdOrPfx_spec demoTargets "AAA1" (by decide)).2 (by decide)).2.1
      ⟨"AAA111", "", ""⟩ (by decide)
  · exact ((byIdOrPfx_spec demoTargets "AAA" (by decide)).2 (by decide)).2.2
      (by decide)
  · exact ((byIdOrPfx_spec demoTargets "ZZZ" (by decide)).2 (by decide)).1
      (by decide)
  · exact (byIdOrPfx_spec demoTargets "AAA111" (by decide)).1
      ⟨"AAA111", "", ""⟩ (by decide) rfl

/-- Helper: a single `*` consumes exactly the runs that contain no `/` — the
run it deletes can end the string only when no path separator remains. -/
theorem any_isEmpty_nonSlashTails (cs : List Char) :
    (nonSlashTails cs).any (fun suf => suf.isEmpty) =
      cs.all fun c => !(c == '/') := by
  induction cs with
  | nil => rfl
  | cons c cs ih =>
    by_cases hc : c = '/'
    · subst hc
      simp [nonSlashTails]
    · simp [nonSlashTails, hc, ih]

/-- C3: `urlPattern` matching tries exact equality, then substring
containment, then glob, in that fixed precedence — an exact match yields the
exact mode without consulting the other two — and in the glob mode `**`
matches any run of characters including `/` while `*` matches any run within
one path segment. -/
theorem urlPattern_precedence (pattern url : String) :
    (pattern = url → urlMatchMode pattern url = some MatchMode.exact)
  ∧ (pattern ≠ url → listContains pattern.data url.data = true →
        urlMatchMode pattern url = some MatchMode.substr)
  ∧ (pattern ≠ url → listContains pattern.data url.data = false →
        globMatch pattern.data url.data = true →
        urlMatchMode pattern url = some MatchMode.glob)
  ∧ (pattern ≠ url → listContains pattern.data url.data = false →
        globMatch pattern.data url.data = false →
        urlMatchMode pattern url = none)
  ∧ (∀ cs : List Char, globMatch ['*', '*'] cs = true)
  ∧ (∀ cs : List Char, globMatch ['*'] cs = cs.all fun c => !(c == '/')) := by
  refine ⟨fun h => ?_, fun h h1 => ?_, fun h h1 h2 => ?_, fun h h1 h2 => ?_,
    fun cs => ?_, fun cs => ?_⟩
  · simp [urlMatchMode, h]
  · simp [urlMatchMode, h, h1]
  · simp [urlMatchMode, h, h1, h2]
  · simp [urlMatchMode, h, h1, h2]
  · have hu : globMatch ['*', '*'] cs =
        cs.tails.any fun suf => globMatch [] suf := rfl
    rw [hu, List.any_eq_true]
    exact ⟨[], (List.mem_tails [] cs).mpr (List.nil_suffix ..), rfl⟩
  · have hu : globMatch ['*'] cs =
        (nonSlashTails cs).any fun suf => globMatch [] suf := rfl
    have he : ∀ suf : List Char, globMatch [] suf = suf.isEmpty := fun _ => rfl
    rw [hu]
    simp only [he]
    exact any_isEmpty_nonSlashTails cs

/-- C4: the matched response body comes back unchanged with the truncation
indicator false when it fits in `maxChars`, and cut to exactly the first
`maxChars` characters with the indicator true when it is longer. -/
theorem awaitResponse_truncation (e : RespEvent) (rest : List RespEvent)
    (pattern : String) (tm : Option Nat) (m : Nat)
    (h1 : e.time < effectiveDeadline tm) (h2 : urlMatches pattern e.url = true) :
    (e.body.length ≤ m →
        awaitResponse pattern tm (some m) (e :: rest) =
          Except.ok { body := e.body, truncated := false, status := e.status,
                      url := e.url })
  ∧ (m < e.body.length →
        awaitResponse pattern tm (some m) (e :: rest) =
          Except.ok { body := e.body.take m, truncated := true,
                      status := e.status, url := e.url }
      ∧ (e.body.take m).length = m) := by
  have hf : List.find? (fun x => decide (x.time < effectiveDeadline tm) &&
      urlMatches pattern x.url) (e :: rest) = some e :=
    List.find?_cons_of_pos _ (by simp [h1, h2])
  constructor
  · intro hle
    simp [awaitResponse, hf, truncateBody, effectiveMaxChars, hle]
  · intro hgt
    refine ⟨?_, ?_⟩
    · simp [awaitResponse, hf, truncateBody, effectiveMaxChars, not_le.mpr hgt]
    · rw [List.length_take]
      omega

/-- Witness for C4: a three-character body with `maxChars = 2` comes back as
its first two characters with the truncation indicator set. -/
theorem awaitResponse_truncation_witness :
    awaitResponse "u" none (some 2)
      [{ time := 0, url := "u", status := 200, body := ['a', 'b', 'c'] }] =
      Except.ok { body := ['a', 'b'], truncated := true, status := 200,
                  url := "u" } :=
  (((awaitResponse_truncation
      { time := 0, url := "u", status := 200, body := ['a', 'b', 'c'] } []
      "u" none 2 (by decide) (by decide)).2 (by decide)).1)

/-- Helper: the waiter's scan skips every response that completes too late
or whose URL misses the pattern. -/
theorem find?_matching_eq_none (pattern : String) (tm : Option Nat)
    (l : List RespEvent)
    (h : ∀ x ∈ l, x.time < effectiveDeadline tm →
      urlMatches pattern x.url = false) :
    List.find? (fun x => decide (x.time < effectiveDeadline tm) &&
      urlMatches pattern x.url) l = none := by
  rw [List.find?_eq_none]
  intro x hx
  simp only [Bool.and_eq_true, decide_eq_true_eq, not_and]
  intro hlt
  simp [h x hx hlt]

/-- C5: with no matching response completing before the deadline the wait
ends in the typed outcome `ResponseTimeout`, which is distinct from
`ServiceUnavailable`; an omitted `timeoutMs` means a 20000 ms deadline; and
whatever non-matching responses complete first, the first matching response
to complete before the deadline is the one returned. -/
theorem awaitResponse_timeout_spec (pattern : String) (tm mc : Option Nat)
    (events : List RespEvent)
    (hnone : ∀ e ∈ events, e.time < effectiveDeadline tm →
      urlMatches pattern e.url = false) :
    awaitResponse pattern tm mc events = Except.error AwaitError.ResponseTimeout
  ∧ AwaitError.ResponseTimeout ≠ AwaitError.ServiceUnavailable
  ∧ effectiveDeadline none = 20000
  ∧ (∀ pre e rest,
      (∀ x ∈ pre, x.time < effectiveDeadline tm →
        urlMatches pattern x.url = false) →
      e.time < effectiveDeadline tm → urlMatches pattern e.url = true →
      awaitResponse pattern tm mc (pre ++ e :: rest) =
        Except.ok { body := (truncateBody e.body (effectiveMaxChars mc)).1,
                    truncated := (truncateBody e.body (effectiveMaxChars mc)).2,
                    status := e.status, url := e.url }) := by
  refine ⟨?_, by simp, rfl, fun pre e rest hskip h1 h2 => ?_⟩
  · simp [awaitResponse, find?_matching_eq_none pattern tm events hnone]
  · have hpre := find?_matching_eq_none pattern tm pre hskip
    have hf : List.find? (fun x => decide (x.time < effectiveDeadline tm) &&
        urlMatches pattern x.url) (pre ++ e :: rest) = some e := by
      rw [List.find?_append, hpre, Option.none_or]
      exact List.find?_cons_of_pos _ (by simp [h1, h2])
    simp [awaitResponse, hf]

/-- Witness for C5: a stream whose only response completes at 100 ms against
a 50 ms deadline times out with the typed outcome, and a stream whose
matching response completes at 20 ms after a non-matching one at 10 ms
returns the matching one. -/
theorem awaitResponse_timeout_spec_witness :
    awaitResponse "zzz" (some 50) none
      [{ time := 100, url := "https://x/api", status := 200, body := [] }] =
      Except.error AwaitError.ResponseTimeout
  ∧ awaitResponse "api" (some 50) none
      [{ time := 10, url := "https://x/other", status := 404, body := ['x'] },
       { time := 20, url := "https://x/api", status := 200, body := ['a'] }] =
      Except.ok { body := ['a'], truncated := false, status := 200,
                  url := "https://x/api" } := by
  constructor
  · exact (awaitResponse_timeout_spec "zzz" (some 50) none
      [{ time := 100, url := "https://x/api", status := 200, body := [] }]
      (by decide)).1
  · exact (awaitResponse_timeout_spec "api" (some 50) none [] (by decide)).2.2.2
      [{ time := 10, url := "https://x/other", status := 404, body := ['x'] }]
      { time := 20, url := "https://x/api", status := 200, body := ['a'] } []
      (by decide) (by decide) (by decide)

end OpenClaw
